import Mathlib

/-!
Verification of the iNaturalist observation uploader
(`inat_fetcher/src/pusher.py`) against its design specification.

The Python source is shallowly embedded below.  Pure functions of the
source become Lean functions; the stateful upload loop becomes explicit
state passing over an association-list state map, with the remote
service's responses supplied by an explicit oracle, and every remote
call / state-file write recorded as an event.  Machine floats of the
source carry only pass-through values in the verified claims, so
coordinates are modelled as rationals.  Fallible Python code (functions
that can raise) returns `Except`.

After the model come concrete fixtures (configurations, oracles and
rows used by the concrete evaluations), the supporting lemmas, and the
verified claims with their witnesses.
-/

namespace Pusher

/-! ## Cells of a pandas row

A pandas `Series.get(col)` yields: the value (string or numeric), NaN
for a missing cell of an existing column, or the supplied default /
`None` when the column is absent.  `Cell.absent` models both `None`
and a missing column (before the `get` default is applied). -/

inductive Cell where
  | absent : Cell
  | nan : Cell
  | num : ℚ → Cell
  | str : String → Cell
deriving Repr, DecidableEq

/-- A row of the input table: column name to cell. -/
def Row : Type := String → Cell

/-- `row.get(col, default)`: the cell if the column is present, else the default. -/
def getD (row : Row) (col : String) (d : Cell) : Cell :=
  match row col with
  | .absent => d
  | c => c

/-- Python `str()` applied to a cell: `str(None) = "None"`, `str(nan) = "nan"`,
strings pass through; the textual form of a float is modelled by `toString`
(no verified claim depends on a numeric cell's string form). -/
def pyStrCell : Cell → String
  | .absent => "None"
  | .nan => "nan"
  | .num q => toString q
  | .str s => s

/-- `pd.notna`: false on NaN and `None`, true otherwise. -/
def notna : Cell → Bool
  | .nan => false
  | .absent => false
  | _ => true

/-- Drop leading whitespace characters. -/
def dropWS : List Char → List Char
  | [] => []
  | c :: cs => if c.isWhitespace then dropWS cs else c :: cs

/-- Python `str.strip()`: whitespace removed from both ends
(structurally recursive, unlike `String.trim`, so that concrete
evaluations reduce). -/
def pyStrip (s : String) : String :=
  String.mk (dropWS (dropWS s.data).reverse).reverse

/-- Python `int()` on a cell (source lines 185-186).  Truncates a float
toward zero; raises (`.error`) on NaN, `None` and non-numeric strings.
String parsing is supplied by the runtime parameter `pint`. -/
def pyIntCell (pint : String → Option Int) : Cell → Except Unit Int
  | .num q => .ok (q.num.tdiv (q.den : Int))
  | .nan => .error ()
  | .absent => .error ()
  | .str s =>
    match pint s with
    | some n => .ok n
    | none => .error ()

/-- `coerce_float` (source lines 129-135): `None`/NaN give `None`; a float
passes through; a string is parsed with Python `float()` (parameter `pf`),
any exception giving `None`. -/
def coerce_float (pf : String → Option ℚ) (val : Cell) : Option ℚ :=
  match val with
  | .absent => none
  | .nan => none
  | .num q => some q
  | .str s => pf s

/-- `parse_datetime` (source lines 112-126): `None`/NaN give `None`; otherwise
the trimmed string form is tried against the fixed `strptime` format list
(parameter `strp`), falling back to the raw string, or `None` when empty. -/
def parse_datetime (strp : String → Option String) (c : Cell) : Option String :=
  match c with
  | .absent => none
  | .nan => none
  | c =>
    let s := pyStrip (pyStrCell c)
    match strp s with
    | some iso => some iso
    | none => if s = "" then none else some s

/-- The `RowData` dataclass (source lines 90-104). -/
structure RowData where
  sample_id : String
  taxon_name : Option String
  observed_on : Option String
  latitude : Option ℚ
  longitude : Option ℚ
  x_coord : Option ℚ
  y_coord : Option ℚ
  inat_upload : Option Int
  is_wild : Option Int
  collector_inat : Option String
  collector_fullname : Option String
  collector_orcid : Option String
  project : Option String
deriving Repr, DecidableEq

/-- `to_row_data` (source lines 170-197).  The unguarded `int()` calls for
`inat_upload` and `is_wild` can raise, so the result is `Except`; every
other field coercion is total.  `pf`/`pint`/`strp` model Python
`float()`/`int()` string parsing and `strptime`. -/
def to_row_data (pf : String → Option ℚ) (pint : String → Option Int)
    (strp : String → Option String) (row : Row) : Except Unit RowData :=
  let taxon0 := pyStrip (pyStrCell (getD row "taxon_name" (.str "")))
  let taxon : Option String :=
    if taxon0 = "" then
      let alt := pyStrip (pyStrCell (getD row "name_proposition" (.str "")))
      if alt = "" then none else some alt
    else some taxon0
  let sid := pyStrip (pyStrCell (getD row "sample_id" (.str "")))
  let iu : Except Unit Int :=
    if notna (row "inat_upload") then pyIntCell pint (getD row "inat_upload" (.num 0))
    else .ok 0
  match iu with
  | .error e => .error e
  | .ok iuv =>
    let iw : Except Unit (Option Int) :=
      if notna (row "is_wild") then (pyIntCell pint (row "is_wild")).map some
      else .ok none
    match iw with
    | .error e => .error e
    | .ok iwv =>
      .ok {
        sample_id := sid
        taxon_name := taxon
        observed_on := parse_datetime strp (row "date")
        latitude := coerce_float pf (row "latitude")
        longitude := coerce_float pf (row "longitude")
        x_coord := coerce_float pf (row "x_coord")
        y_coord := coerce_float pf (row "y_coord")
        inat_upload := some iuv
        is_wild := iwv
        collector_inat :=
          if notna (row "collector_inat") then some (pyStrip (pyStrCell (row "collector_inat"))) else none
        collector_fullname :=
          if notna (row "collector_fullname") then some (pyStrip (pyStrCell (row "collector_fullname"))) else none
        collector_orcid :=
          if notna (row "collector_orcid") then some (pyStrip (pyStrCell (row "collector_orcid"))) else none
        project :=
          if notna (row "project") then some (pyStrip (pyStrCell (row "project"))) else none }

/-- Python truthiness of the `Optional[int]` field `inat_upload`. -/
def truthyOptInt : Option Int → Bool
  | none => false
  | some n => n != 0

/-- The row filter of the run loop (source line 331):
`[r for r in rows if r.inat_upload and r.sample_id]`. -/
def uploadEligible (r : RowData) : Bool :=
  truthyOptInt r.inat_upload && r.sample_id != ""

/-- The generator feeding the filter is consumed eagerly by the list
comprehension at source line 331, so an exception from `to_row_data`
for any row aborts the whole extraction. -/
def extractRows (pf : String → Option ℚ) (pint : String → Option Int)
    (strp : String → Option String) : List Row → Except Unit (List RowData)
  | [] => .ok []
  | row :: rest =>
    match to_row_data pf pint strp row with
    | .error e => .error e
    | .ok r =>
      match extractRows pf pint strp rest with
      | .error e => .error e
      | .ok rs => .ok (r :: rs)

/-! ## Photo locator (`collect_photos`, source lines 154-167)

The local filesystem is modelled as the set of sample subdirectories of
the images root, each with its directory listing.  `Path.glob` with the
source's patterns is a case-sensitive suffix match that skips names
starting with a dot (pathlib never matches hidden files). -/

structure FileSystem where
  dirs : List (String × List String)
deriving Repr, DecidableEq

/-- Lookup of the subdirectory named after a sample id; `none` when
`folder.exists()`/`is_dir()` fails. -/
def FileSystem.lookup (fs : FileSystem) (sid : String) : Option (List String) :=
  match fs.dirs.find? (fun d => d.1 = sid) with
  | some d => some d.2
  | none => none

/-- Suffix test on the character lists (structurally recursive, unlike
`String.endsWith`, so that concrete evaluations reduce). -/
def strEndsWith (s suffix : String) : Bool :=
  suffix.data.reverse.isPrefixOf s.data.reverse

/-- Does the name start with a dot (pathlib glob never matches these)? -/
def startsWithDot (s : String) : Bool :=
  match s.data with
  | [] => false
  | c :: _ => c = '.'

/-- `folder.glob("*" ++ suffix)` membership test for one file name. -/
def globStar (suffix : String) (name : String) : Bool :=
  (!startsWithDot name) && strEndsWith name suffix

/-- The `exts` tuple of the source: `("*.jpg", "*.jpeg", "*.png")`,
kept as the suffix after the star. -/
def photoExts : List String := [".jpg", ".jpeg", ".png"]

/-- A token of the natural sort key: a run of non-digits, or a run of
digits (kept as text, compared numerically, as `int()` of the run). -/
inductive Tok where
  | txt : String → Tok
  | dig : String → Tok
deriving Repr, DecidableEq

/-- Numeric value of a digit run (`int("007") = 7`). -/
def natOfDigits (s : String) : Nat :=
  s.data.foldl (fun n c => n * 10 + (c.toNat - 48)) 0

/-- Prepend one character to a token list, merging it into the leading
run.  Maintains the `re.split` shape: the list alternates
text, digits, text, ..., text (text runs possibly empty). -/
def consTok (c : Char) (ts : List Tok) : List Tok :=
  if c.isDigit then
    match ts with
    | .txt "" :: .dig d :: more => .txt "" :: .dig (String.mk (c :: d.data)) :: more
    | _ => .txt "" :: .dig (String.mk [c]) :: ts
  else
    match ts with
    | .txt t :: more => .txt (String.mk (c :: t.data)) :: more
    | _ => .txt (String.mk [c]) :: ts

/-- `re.split(r"(\d+)", s)` with digit groups kept: tokens of `s`. -/
def toksOf : List Char → List Tok
  | [] => [.txt ""]
  | c :: cs => consTok c (toksOf cs)

/-- `natural_key` of the source (lines 163-165): lowercase the name, split
on digit runs, compare digit runs as integers. -/
def natural_key (name : String) : List Tok :=
  toksOf (name.data.map Char.toLower)

/-- Python code-point order on characters. -/
def charLt (a b : Char) : Bool := decide (a.toNat < b.toNat)

/-- Lexicographic strict order on lists, Python's list/str `<`. -/
def lexListLt (lt : α → α → Bool) : List α → List α → Bool
  | [], [] => false
  | [], _ :: _ => true
  | _ :: _, [] => false
  | a :: as, b :: bs =>
    if lt a b then true else if lt b a then false else lexListLt lt as bs

/-- Python string `<`: code-point lexicographic. -/
def charListLt (a b : String) : Bool := lexListLt charLt a.data b.data

/-- Strict order on tokens.  On the keys actually produced (which pair
text with text and digits with digits positionally) only the first two
arms are reachable; the mixed arms are fixed arbitrarily but
consistently (all digit runs below all text runs) to keep the order
linear. -/
def tokLt : Tok → Tok → Bool
  | .txt a, .txt b => charListLt a b
  | .dig a, .dig b => decide (natOfDigits a < natOfDigits b)
  | .dig _, .txt _ => true
  | .txt _, .dig _ => false

/-- Lexicographic strict order on token lists: Python's list `<`. -/
def keyLt : List Tok → List Tok → Bool := lexListLt tokLt

/-- The sort key comparison used by `sorted(paths, key=natural_key)`. -/
def photoLt (a b : String) : Bool :=
  keyLt (natural_key a) (natural_key b)

/-- Stable insertion for a strict order: the new element goes after every
element it is not strictly below, as Python's stable `sorted` does. -/
def insertLt (lt : α → α → Bool) (x : α) : List α → List α
  | [] => [x]
  | y :: ys => if lt x y then x :: y :: ys else y :: insertLt lt x ys

/-- Stable sort by a strict order (insertion sort). -/
def sortByLt (lt : α → α → Bool) : List α → List α
  | [] => []
  | x :: xs => insertLt lt x (sortByLt lt xs)

/-- `collect_photos` (source lines 154-167): empty when the sample
subdirectory is absent; otherwise the files matching the three glob
patterns, in pattern order, sorted by the natural key. -/
def collect_photos (fs : FileSystem) (sample_id : String) : List String :=
  match fs.lookup sample_id with
  | none => []
  | some files =>
    let paths := photoExts.flatMap (fun ext => files.filter (globStar ext))
    sortByLt photoLt paths

/-! ## Coordinate resolver (`resolve_lat_lon_from_xy`, source lines 260-288) -/

/-- `resolve_lat_lon_from_xy`.  The pyproj `Transformer` backend for a
non-geographic EPSG code is the runtime parameter `transform` (returning
`none` when the import or the transform fails); the logger argument of
the source only emits messages and is dropped.  Returns `(lat, lon)`. -/
def resolve_lat_lon_from_xy (transform : String → ℚ → ℚ → Option (ℚ × ℚ))
    (rowd : RowData) (xy_epsg : String) : Option ℚ × Option ℚ :=
  match rowd.x_coord, rowd.y_coord with
  | some x, some y =>
    if xy_epsg = "4326" then (some y, some x)
    else
      match transform xy_epsg x y with
      | some (lat, lon) => (some lat, some lon)
      | none => (none, none)
  | _, _ => (none, none)

/-! ## State store

A JSON object mapping sample id to
`\x7bid, uuid, uploaded_photos, complete\x7d`, modelled by an association
list of entries.  An absent JSON field equals the structure default
(`state[sid].get("complete") is True` is `complete`,
`entry.get("uploaded_photos", [])` is `uploaded_photos`). -/

structure Entry where
  rid : Option Nat := none
  uuid : Option String := none
  uploaded_photos : List String := []
  complete : Bool := false
deriving Repr, DecidableEq

abbrev StateMap : Type := List (String × Entry)

def getEntry (st : StateMap) (k : String) : Option Entry :=
  match st with
  | [] => none
  | (k1, e) :: rest => if k1 = k then some e else getEntry rest k

/-- `state[k] = e` (insert or replace). -/
def setEntry (st : StateMap) (k : String) (e : Entry) : StateMap :=
  match st with
  | [] => [(k, e)]
  | (k1, e1) :: rest => if k1 = k then (k, e) :: rest else (k1, e1) :: setEntry rest k e

/-- `rowd.sample_id in state and state[rowd.sample_id].get("complete") is True`
(source line 340). -/
def completeInState (st : StateMap) (sid : String) : Bool :=
  match getEntry st sid with
  | some e => e.complete
  | none => false

/-- The `uploaded_photos` list the state records for a sample
(empty when the entry or the field is absent). -/
def uploadedPhotos (st : StateMap) (sid : String) : List String :=
  match getEntry st sid with
  | some e => e.uploaded_photos
  | none => []

/-- Python string `<` as a Bool, for `sorted` on hash strings. -/
def strLt (a b : String) : Bool := charListLt a b

/-- `sorted(set(l) | set(r))`: union as sets, returned sorted. -/
def sortedUnion (l r : List String) : List String :=
  sortByLt strLt ((l ++ r).dedup)

/-- `load()` of the state store (source lines 320-326): the persisted
mapping when the file exists and parses, the empty mapping when the
file is absent or reading/parsing raises. -/
inductive FileStatus where
  | absent : FileStatus
  | corrupt : FileStatus
  | parsed : StateMap → FileStatus

def loadState : FileStatus → StateMap
  | .absent => []
  | .corrupt => []
  | .parsed m => m

/-- Observable contents of the state file during
`state_file.write_text(new)`: `Path.write_text` opens the file with
mode `w`, truncating it to empty, and then writes the new content, so
a concurrent reader can observe the truncated intermediate file. -/
def write_text_states (old new : String) : List String := [old, "", new]

/-! ## Remote service and the upload orchestrator (`run`, source lines 291-663)

Remote responses are an oracle; every remote call and every state-file
write is recorded as an event so the claims can speak about which calls
a run performs. -/

/-- A remote observation record, as the dict the API returns
(`resp.get("id")`, `resp.get("uuid")`). -/
structure RemoteObs where
  id : Option Nat := none
  uuid : Option String := none
deriving Repr, DecidableEq

/-- Python truthiness of `resp.get("id")`: present and non-zero. -/
def idTruthy : Option Nat → Bool
  | some i => i != 0
  | none => false

inductive Ev where
  | search : String → Ev
  | create : Ev
  | attach : String → Ev
  | countQ : Ev
  | dqa : Ev
  | fetchVerify : Ev
  | save : StateMap → Ev
deriving Repr, DecidableEq

/-- Responses of the remote service and the local file contents for one
sample's processing, indexed by call order:
`dedupe` for the line-352 tag search, `polls` for the successive
`wait_for_existing` ticks, `createRes` for successive
`create_observation` calls, `counts` for successive `_get_photo_count`
results (`-1` on failure), `uploadRes` for successive `upload` calls,
`hashOf`/`sizeOf` for `_sha256_file` (raising when `none`) and
`p.stat().st_size`. -/
structure Oracle where
  dedupe : Except Unit (List RemoteObs)
  polls : Nat → Option RemoteObs
  createRes : Nat → Except Unit RemoteObs
  counts : Nat → Int
  uploadRes : Nat → Except Unit Unit
  hashOf : String → Option String
  sizeOf : String → Nat

/-- Run configuration, as the `run` keyword arguments that the claims
depend on.  `indexFuel` is the number of poll ticks that fit in
`index_wait_seconds` (zero when the wait ceiling is zero, as in
`wait_for_existing(0)`, whose deadline passes before the first tick). -/
structure Config where
  dryRun : Bool
  tokenPresent : Bool
  stateFile : Bool
  dedupeRemote : Bool
  verify : Bool
  uploadRetries : Nat
  indexFuel : Nat
deriving Repr, DecidableEq

inductive Outcome where
  | skippedComplete : Outcome
  | skippedExisting : Outcome
  | skippedNoPhotos : Outcome
  | skippedNoCoords : Outcome
  | dryRun : Outcome
  | created : RemoteObs → Outcome
  | errored : Outcome
deriving Repr, DecidableEq

/-- `wait_for_existing` (source lines 435-455): poll the tag search once
per tick until found or the deadline (`fuel` ticks) passes.  Returns
the found record, the next poll cursor, and the emitted searches. -/
def wait_for_existing (tag : String) (polls : Nat → Option RemoteObs) :
    Nat → Nat → Option RemoteObs × Nat × List Ev
  | 0, cur => (none, cur, [])
  | fuel + 1, cur =>
    match polls cur with
    | some r => (some r, cur + 1, [.search tag])
    | none =>
      let rest := wait_for_existing tag polls fuel (cur + 1)
      (rest.1, rest.2.1, .search tag :: rest.2.2)

/-- The create retry loop (source lines 457-485).  `left` is the number
of retries still allowed (`upload_retries - attempt`); the
pre-create re-check `wait_for_existing(0)` performs zero polls and is
dropped.  After a failed create the loop waits for indexing
(`indexFuel` ticks); a record found there is used instead of retrying;
once retries are exhausted the exception propagates (`none`). -/
def createLoop (o : Oracle) (tag : String) (indexFuel : Nat) :
    Nat → Nat → Nat → Option RemoteObs × Nat × List Ev
  | left, i, cur =>
    match o.createRes i with
    | .ok r => (some r, cur, [.create])
    | .error _ =>
      let w := wait_for_existing tag o.polls indexFuel cur
      match w.1 with
      | some r => (some r, w.2.1, .create :: w.2.2)
      | none =>
        match left with
        | 0 => (none, w.2.1, .create :: w.2.2)
        | left' + 1 =>
          let rest := createLoop o tag indexFuel left' (i + 1) w.2.1
          (rest.1, rest.2.1, .create :: w.2.2 ++ rest.2.2)

/-- One attempt of the per-photo upload retry loop (source lines
544-608): read the photo count, upload, read the count again.  On the
exception path exactly as on the normal path, the upload counts as
confirmed precisely when the photo count increased.  Returns the
confirmation flag, the count read after the attempt, and the events. -/
def photoAttempt (o : Oracle) (p : String) (cIdx uIdx : Nat) : Bool × Int × List Ev :=
  let before := o.counts cIdx
  let after := o.counts (cIdx + 1)
  let evs := [Ev.countQ, Ev.attach p, Ev.countQ]
  match o.uploadRes uIdx with
  | .error _ => (decide (before < after), after, evs)
  | .ok _ => (decide (before < after), after, evs)

/-- The `while True` retry loop around one photo (source lines 544-608):
an unconfirmed attempt is retried until `per_attempt > upload_retries`
raises (`none`); `left` is the number of retries still allowed.
Returns the new server count on success, with the next count/upload
cursors and the events. -/
def photoLoop (o : Oracle) (p : String) : Nat → Nat → Nat → Option Int × Nat × Nat × List Ev
  | 0, cIdx, uIdx =>
    let a := photoAttempt o p cIdx uIdx
    if a.1 then (some a.2.1, cIdx + 2, uIdx + 1, a.2.2)
    else (none, cIdx + 2, uIdx + 1, a.2.2)
  | left + 1, cIdx, uIdx =>
    let a := photoAttempt o p cIdx uIdx
    if a.1 then (some a.2.1, cIdx + 2, uIdx + 1, a.2.2)
    else
      let rest := photoLoop o p left (cIdx + 2) (uIdx + 1)
      (rest.1, rest.2.1, rest.2.2.1, a.2.2 ++ rest.2.2.2)

/-- Result of the photo `for` loop: final state, in-memory uploaded-hash
set, server count, cursors, events, and whether an exception escaped. -/
structure ForRes where
  st : StateMap
  hashes : List String
  serverCount : Int
  cIdx : Nat
  uIdx : Nat
  evs : List Ev
  raised : Bool

/-- The `for photo_path in photos_list` loop (source lines 529-608):
skip a photo whose hash is already recorded, stop once the server
count covers all local photos, otherwise upload with retries; a
confirmed upload records the hash in the state and saves at once. -/
def photosFor (o : Oracle) (cfg : Config) (sid : String) (localTotal : Nat) :
    List String → StateMap → List String → Int → Nat → Nat → ForRes
  | [], st, hashes, sc, cIdx, uIdx =>
    { st := st, hashes := hashes, serverCount := sc, cIdx := cIdx, uIdx := uIdx,
      evs := [], raised := false }
  | p :: ps, st, hashes, sc, cIdx, uIdx =>
    let h :=
      match o.hashOf p with
      | some h => h
      | none => "name:" ++ p ++ "|size:" ++ toString (o.sizeOf p)
    if hashes.contains h then
      photosFor o cfg sid localTotal ps st hashes sc cIdx uIdx
    else if (localTotal : Int) ≤ sc then
      { st := st, hashes := hashes, serverCount := sc, cIdx := cIdx, uIdx := uIdx,
        evs := [], raised := false }
    else
      let pl := photoLoop o p cfg.uploadRetries cIdx uIdx
      match pl.1 with
      | none =>
        { st := st, hashes := hashes, serverCount := sc, cIdx := pl.2.1, uIdx := pl.2.2.1,
          evs := pl.2.2.2, raised := true }
      | some after =>
        let hashes1 := h :: hashes
        let stSaves :=
          if cfg.stateFile then
            let e := (getEntry st sid).getD {}
            let st1 := setEntry st sid { e with uploaded_photos := sortedUnion e.uploaded_photos [h] }
            (st1, [Ev.save st1])
          else (st, [])
        let rest := photosFor o cfg sid localTotal ps stSaves.1 hashes1 after pl.2.1 pl.2.2.1
        { rest with evs := pl.2.2.2 ++ stSaves.2 ++ rest.evs }

/-- The media-attachment block (source lines 487-617), entered with the
created or recovered observation `resp`.  Returns the new state, the
events, and whether an exception escaped the block. -/
def attachPhase (o : Oracle) (cfg : Config) (sid : String) (resp : RemoteObs)
    (photos : List String) (st : StateMap) : StateMap × List Ev × Bool :=
  if idTruthy resp.id && !photos.isEmpty then
    let stEvs1 :=
      if cfg.stateFile then
        let e := (getEntry st sid).getD {}
        let st1 := setEntry st sid { e with rid := resp.id, uuid := resp.uuid }
        (st1, [Ev.save st1])
      else (st, ([] : List Ev))
    let st1 := stEvs1.1
    let serverCount := o.counts 0
    let evs2 := stEvs1.2 ++ [Ev.countQ]
    let localTotal := photos.length
    if (localTotal : Int) ≤ serverCount then
      if cfg.stateFile then
        let e := (getEntry st1 sid).getD {}
        let allHashes :=
          if photos.all (fun p => (o.hashOf p).isSome) then photos.filterMap o.hashOf
          else []
        let st2 := setEntry st1 sid
          { e with uploaded_photos := sortedUnion e.uploaded_photos allHashes, complete := true }
        (st2, evs2 ++ [Ev.save st2], false)
      else (st1, evs2, false)
    else
      let hashes0 :=
        match getEntry st1 sid with
        | some e => e.uploaded_photos
        | none => []
      let r := photosFor o cfg sid localTotal photos st1 hashes0 serverCount 1 0
      if r.raised then (r.st, evs2 ++ r.evs, true)
      else
        if cfg.stateFile then
          let finalCount := o.counts r.cIdx
          let base := evs2 ++ r.evs ++ [Ev.countQ]
          if (localTotal : Int) ≤ finalCount then
            let e := (getEntry r.st sid).getD {}
            let st3 := setEntry r.st sid { e with complete := true }
            (st3, base ++ [Ev.save st3], false)
          else (r.st, base, false)
        else (r.st, evs2 ++ r.evs, false)
  else (st, [], false)

/-- One iteration of the run loop (source lines 338-663): the
complete-in-state skip, the remote dedupe, photo collection, coordinate
resolution, the dry-run stop, and the create / attach / DQA / state
rewrite block, whose exceptions are caught at line 661 (`errored`,
processing continues with the next sample). -/
def processSample (cfg : Config) (fs : FileSystem)
    (transform : String → ℚ → ℚ → Option (ℚ × ℚ)) (epsgToUse : String)
    (o : Oracle) (rowd : RowData) (st : StateMap) : StateMap × List Ev × Outcome :=
  let sid := rowd.sample_id
  if cfg.stateFile && completeInState st sid then (st, [], .skippedComplete)
  else
    let tag := "emi_external_id:" ++ sid
    let dedupeHit : Option RemoteObs :=
      if cfg.dedupeRemote then
        match o.dedupe with
        | .ok (first :: _) => some first
        | _ => none
      else none
    match dedupeHit with
    | some first =>
      let st1 := if cfg.stateFile then setEntry st sid { rid := first.id } else st
      (st1, [.search tag], .skippedExisting)
    | none =>
      let evs0 : List Ev := if cfg.dedupeRemote then [.search tag] else []
      let photos := collect_photos fs sid
      if photos.isEmpty then (st, evs0, .skippedNoPhotos)
      else
        match resolve_lat_lon_from_xy transform rowd epsgToUse with
        | (some _, some _) =>
          if cfg.dryRun then (st, evs0, .dryRun)
          else
            let cl := createLoop o tag cfg.indexFuel cfg.uploadRetries 0 0
            match cl.1 with
            | none => (st, evs0 ++ cl.2.2, .errored)
            | some resp =>
              let ap := attachPhase o cfg sid resp photos st
              if ap.2.2 then (ap.1, evs0 ++ cl.2.2 ++ ap.2.1, .errored)
              else
                let dqaEvs : List Ev :=
                  if rowd.is_wild.isSome && idTruthy resp.id && cfg.tokenPresent then [.dqa]
                  else []
                let stFEvs :=
                  if cfg.stateFile && resp.id.isSome then
                    let stF := setEntry ap.1 sid { rid := resp.id, uuid := resp.uuid }
                    (stF, [Ev.save stF])
                  else (ap.1, ([] : List Ev))
                let verEvs : List Ev :=
                  if cfg.verify && idTruthy resp.id && cfg.tokenPresent then [.fetchVerify]
                  else []
                (stFEvs.1, evs0 ++ cl.2.2 ++ ap.2.1 ++ dqaEvs ++ stFEvs.2 ++ verEvs,
                 .created resp)
        | _ => (st, evs0, .skippedNoCoords)

/-- The `for idx, rowd in enumerate(filtered)` loop, each sample getting
its own oracle. -/
def runLoop (cfg : Config) (fs : FileSystem)
    (transform : String → ℚ → ℚ → Option (ℚ × ℚ)) (epsgToUse : String)
    (oracles : Nat → Oracle) : List RowData → Nat → StateMap → StateMap × List Ev × List Outcome
  | [], _, st => (st, [], [])
  | r :: rs, i, st =>
    let one := processSample cfg fs transform epsgToUse (oracles i) r st
    let rest := runLoop cfg fs transform epsgToUse oracles rs (i + 1) one.1
    (rest.1, one.2.1 ++ rest.2.1, one.2.2 :: rest.2.2)

/-- `run` (source lines 291-663).  A missing token with `--no-dry-run`
raises `SystemExit` before the state load and before any remote call;
the state file is loaded (absent or corrupt treated as empty); every
CSV row is extracted eagerly (an exception there aborts the run); the
eligible rows, cut to `limit`, are processed one by one. -/
def run (cfg : Config) (pf : String → Option ℚ) (pint : String → Option Int)
    (strp : String → Option String) (fs : FileSystem)
    (transform : String → ℚ → ℚ → Option (ℚ × ℚ)) (epsgToUse : String)
    (file : FileStatus) (rows : List Row) (oracles : Nat → Oracle)
    (limit : Option Nat) : Except String (StateMap × List Ev × List Outcome) :=
  if !cfg.tokenPresent && !cfg.dryRun then
    .error "Access token required for non-dry-run."
  else
    let st0 := if cfg.stateFile then loadState file else []
    match extractRows pf pint strp rows with
    | .error _ => .error "row extraction raised"
    | .ok rds =>
      let filtered := rds.filter uploadEligible
      let limited :=
        match limit with
        | none => filtered
        | some n => filtered.take n
      .ok (runLoop cfg fs transform epsgToUse oracles limited 0 st0)

/-- Oracle whose photo count grows with every query and whose hashes
are derived from the file name: drives one confirmed upload. -/
def oracleUp : Oracle where
  dedupe := .ok []
  polls := fun _ => none
  createRes := fun _ => .ok { id := some 7, uuid := some "u7" }
  counts := fun n => (n : Int)
  uploadRes := fun _ => .ok ()
  hashOf := fun p => some ("sha-" ++ p)
  sizeOf := fun _ => 0

/-- The state after the hash-recording mutation of source lines
563-565 / 593-595: the entry's `uploaded_photos` becomes the sorted
union of the old list and the new hash. -/
def addHashState (st : StateMap) (sid h : String) : StateMap :=
  setEntry st sid
    { (getEntry st sid).getD {} with
      uploaded_photos := sortedUnion ((getEntry st sid).getD {}).uploaded_photos [h] }

/-- The state after the id/uuid-recording mutation of source lines
491-493 (`setdefault` then `update`). -/
def recordIdState (st : StateMap) (sid : String) (resp : RemoteObs) : StateMap :=
  setEntry st sid { (getEntry st sid).getD {} with rid := resp.id, uuid := resp.uuid }

/-! ## Concrete fixtures for the evaluations -/

def pf0 : String → Option ℚ := fun _ => none
def pint0 : String → Option Int := fun _ => none
def strp0 : String → Option String := fun _ => none
def transform0 : String → ℚ → ℚ → Option (ℚ × ℚ) := fun _ _ _ => none

def fsMain : FileSystem := ⟨[("dbgi_000001", ["img1.jpg"])]⟩

def rowdMain : RowData where
  sample_id := "dbgi_000001"
  taxon_name := none
  observed_on := none
  latitude := none
  longitude := none
  x_coord := some 7
  y_coord := some 46
  inat_upload := some 1
  is_wild := none
  collector_inat := none
  collector_fullname := none
  collector_orcid := none
  project := none

def cfgDedupe : Config where
  dryRun := true
  tokenPresent := true
  stateFile := true
  dedupeRemote := true
  verify := false
  uploadRetries := 2
  indexFuel := 1

def oracleFound : Oracle where
  dedupe := .ok [{ id := some 5 }]
  polls := fun _ => none
  createRes := fun _ => .error ()
  counts := fun _ => 0
  uploadRes := fun _ => .ok ()
  hashOf := fun _ => none
  sizeOf := fun _ => 0

def stPartial : StateMap := [("dbgi_000001", { rid := some 5, uploaded_photos := ["h1"] })]

def cfgPush : Config where
  dryRun := false
  tokenPresent := true
  stateFile := true
  dedupeRemote := false
  verify := false
  uploadRetries := 2
  indexFuel := 1

def oracleSrvFull : Oracle where
  dedupe := .ok []
  polls := fun _ => none
  createRes := fun _ => .ok { id := some 7, uuid := some "u7" }
  counts := fun _ => 1
  uploadRes := fun _ => .ok ()
  hashOf := fun p => some ("sha-" ++ p)
  sizeOf := fun _ => 0


def stComplete : StateMap := [("dbgi_000001", { complete := true })]

def rowNoSampleId : Row := fun c => if c = "inat_upload" then .num 1 else .absent

def rdEmpty : RowData where
  sample_id := ""
  taxon_name := none
  observed_on := none
  latitude := none
  longitude := none
  x_coord := none
  y_coord := none
  inat_upload := some 1
  is_wild := none
  collector_inat := none
  collector_fullname := none
  collector_orcid := none
  project := none

def cfgCreate : Config where
  dryRun := false
  tokenPresent := true
  stateFile := false
  dedupeRemote := false
  verify := false
  uploadRetries := 2
  indexFuel := 1

def obsFound : RemoteObs := { id := some 9 }

def oracleRecover : Oracle where
  dedupe := .ok []
  polls := fun _ => some obsFound
  createRes := fun _ => .error ()
  counts := fun _ => 0
  uploadRes := fun _ => .ok ()
  hashOf := fun _ => none
  sizeOf := fun _ => 0

def cfgDryTok : Config where
  dryRun := true
  tokenPresent := true
  stateFile := false
  dedupeRemote := false
  verify := false
  uploadRetries := 2
  indexFuel := 1

def rowBadFlag : Row := fun c =>
  if c = "sample_id" then .str "dbgi_000001"
  else if c = "inat_upload" then .str "yes" else .absent

def fsUpper : FileSystem := ⟨[("dbgi_000002", ["PIC1.JPG", "Pic2.PNG", "notes.txt"])]⟩

/-! ### Order lemmas for the natural sort -/

theorem charLt_asymm (a b : Char) (h : charLt a b = true) : charLt b a = false := by
  simp only [charLt, decide_eq_true_eq] at h
  simp only [charLt, decide_eq_false_iff_not]
  omega

theorem charLt_trans (a b c : Char) (h1 : charLt a b = true) (h2 : charLt b c = true) :
    charLt a c = true := by
  simp only [charLt, decide_eq_true_eq] at h1 h2 ⊢
  omega

theorem charLt_eqv_left (a b : Char) (hab : charLt a b = false) (hba : charLt b a = false)
    (c : Char) : charLt a c = charLt b c := by
  simp only [charLt, decide_eq_false_iff_not, not_lt] at hab hba
  have h : a.toNat = b.toNat := le_antisymm hba hab
  simp [charLt, h]

theorem charLt_eqv_right (a b : Char) (hab : charLt a b = false) (hba : charLt b a = false)
    (c : Char) : charLt c a = charLt c b := by
  simp only [charLt, decide_eq_false_iff_not, not_lt] at hab hba
  have h : a.toNat = b.toNat := le_antisymm hba hab
  simp [charLt, h]

theorem lexListLt_asymm (lt : α → α → Bool)
    (has : ∀ a b, lt a b = true → lt b a = false) :
    ∀ x y : List α, lexListLt lt x y = true → lexListLt lt y x = false
  | [], [], h => by simp [lexListLt] at h
  | [], _ :: _, _ => by simp [lexListLt]
  | _ :: _, [], h => by simp [lexListLt] at h
  | a :: as, b :: bs, h => by
    rw [lexListLt] at h
    rw [lexListLt]
    by_cases hab : lt a b = true
    · rw [if_neg (by simp [has a b hab]), if_pos hab]
    · rw [if_neg hab] at h
      by_cases hba : lt b a = true
      · rw [if_pos hba] at h
        exact absurd h (by simp)
      · rw [if_neg hba] at h
        rw [if_neg hba, if_neg hab]
        exact lexListLt_asymm lt has as bs h

theorem lexListLt_trans (lt : α → α → Bool)
    (htr : ∀ a b c, lt a b = true → lt b c = true → lt a c = true)
    (heqL : ∀ a b, lt a b = false → lt b a = false → ∀ c, lt a c = lt b c)
    (heqR : ∀ a b, lt a b = false → lt b a = false → ∀ c, lt c a = lt c b) :
    ∀ x y z : List α,
      lexListLt lt x y = true → lexListLt lt y z = true → lexListLt lt x z = true
  | [], [], _, h1, _ => by simp [lexListLt] at h1
  | [], _ :: _, [], _, h2 => by simp [lexListLt] at h2
  | [], _ :: _, _ :: _, _, _ => by simp [lexListLt]
  | _ :: _, [], _, h1, _ => by simp [lexListLt] at h1
  | _ :: _, _ :: _, [], _, h2 => by simp [lexListLt] at h2
  | a :: as, b :: bs, c :: cs, h1, h2 => by
    rw [lexListLt] at h1 h2
    rw [lexListLt]
    by_cases hab : lt a b = true
    · by_cases hbc : lt b c = true
      · rw [if_pos (htr a b c hab hbc)]
      · rw [if_neg hbc] at h2
        by_cases hcb : lt c b = true
        · rw [if_pos hcb] at h2
          exact absurd h2 (by simp)
        · have hac : lt a c = true := by
            rw [heqR b c (by simpa using hbc) (by simpa using hcb) a] at hab
            exact hab
          rw [if_pos hac]
    · rw [if_neg hab] at h1
      by_cases hba : lt b a = true
      · rw [if_pos hba] at h1
        exact absurd h1 (by simp)
      · rw [if_neg hba] at h1
        have hab1 : lt a b = false := by simpa using hab
        have hba1 : lt b a = false := by simpa using hba
        by_cases hbc : lt b c = true
        · rw [if_pos (by rw [heqL a b hab1 hba1 c]; exact hbc)]
        · rw [if_neg hbc] at h2
          by_cases hcb : lt c b = true
          · rw [if_pos hcb] at h2
            exact absurd h2 (by simp)
          · rw [if_neg hcb] at h2
            have hbc1 : lt b c = false := by simpa using hbc
            have hcb1 : lt c b = false := by simpa using hcb
            have hac : lt a c = false := by
              rw [heqL a b hab1 hba1 c]
              exact hbc1
            have hca : lt c a = false := by
              rw [heqR a b hab1 hba1 c]
              exact hcb1
            rw [if_neg (by simp [hac]), if_neg (by simp [hca])]
            exact lexListLt_trans lt htr heqL heqR as bs cs h1 h2

theorem lexListLt_eqv_left (lt : α → α → Bool)
    (heqL : ∀ a b, lt a b = false → lt b a = false → ∀ c, lt a c = lt b c)
    (heqR : ∀ a b, lt a b = false → lt b a = false → ∀ c, lt c a = lt c b) :
    ∀ x y : List α, lexListLt lt x y = false → lexListLt lt y x = false →
      ∀ z : List α, lexListLt lt x z = lexListLt lt y z
  | [], [], _, _, _ => rfl
  | [], _ :: _, hxy, _, _ => by simp [lexListLt] at hxy
  | _ :: _, [], _, hyx, _ => by simp [lexListLt] at hyx
  | a :: as, b :: bs, hxy, hyx, z => by
    rw [lexListLt] at hxy hyx
    by_cases hab : lt a b = true
    · rw [if_pos hab] at hxy
      exact absurd hxy (by simp)
    · rw [if_neg hab] at hxy
      by_cases hba : lt b a = true
      · rw [if_pos hba] at hyx
        exact absurd hyx (by simp)
      · rw [if_neg hba] at hxy
        rw [if_neg hab, if_neg hba] at hyx
        have hab1 : lt a b = false := by simpa using hab
        have hba1 : lt b a = false := by simpa using hba
        cases z with
        | nil => rfl
        | cons c cs =>
          rw [lexListLt, lexListLt]
          rw [heqL a b hab1 hba1 c, heqR a b hab1 hba1 c,
            lexListLt_eqv_left lt heqL heqR as bs hxy hyx cs]

theorem lexListLt_eqv_right (lt : α → α → Bool)
    (heqL : ∀ a b, lt a b = false → lt b a = false → ∀ c, lt a c = lt b c)
    (heqR : ∀ a b, lt a b = false → lt b a = false → ∀ c, lt c a = lt c b) :
    ∀ x y : List α, lexListLt lt x y = false → lexListLt lt y x = false →
      ∀ z : List α, lexListLt lt z x = lexListLt lt z y
  | [], [], _, _, _ => rfl
  | [], _ :: _, hxy, _, _ => by simp [lexListLt] at hxy
  | _ :: _, [], _, hyx, _ => by simp [lexListLt] at hyx
  | a :: as, b :: bs, hxy, hyx, z => by
    rw [lexListLt] at hxy hyx
    by_cases hab : lt a b = true
    · rw [if_pos hab] at hxy
      exact absurd hxy (by simp)
    · rw [if_neg hab] at hxy
      by_cases hba : lt b a = true
      · rw [if_pos hba] at hyx
        exact absurd hyx (by simp)
      · rw [if_neg hba] at hxy
        rw [if_neg hab, if_neg hba] at hyx
        have hab1 : lt a b = false := by simpa using hab
        have hba1 : lt b a = false := by simpa using hba
        cases z with
        | nil => rfl
        | cons c cs =>
          rw [lexListLt, lexListLt]
          rw [heqR a b hab1 hba1 c, heqL a b hab1 hba1 c,
            lexListLt_eqv_right lt heqL heqR as bs hxy hyx cs]

theorem charListLt_asymm (a b : String) (h : charListLt a b = true) : charListLt b a = false :=
  lexListLt_asymm charLt charLt_asymm a.data b.data h

theorem charListLt_trans (a b c : String) (h1 : charListLt a b = true)
    (h2 : charListLt b c = true) : charListLt a c = true :=
  lexListLt_trans charLt charLt_trans charLt_eqv_left charLt_eqv_right a.data b.data c.data h1 h2

theorem charListLt_eqv_left (a b : String) (hab : charListLt a b = false)
    (hba : charListLt b a = false) (c : String) : charListLt a c = charListLt b c :=
  lexListLt_eqv_left charLt charLt_eqv_left charLt_eqv_right a.data b.data hab hba c.data

theorem charListLt_eqv_right (a b : String) (hab : charListLt a b = false)
    (hba : charListLt b a = false) (c : String) : charListLt c a = charListLt c b :=
  lexListLt_eqv_right charLt charLt_eqv_left charLt_eqv_right a.data b.data hab hba c.data

theorem tokLt_asymm : ∀ a b : Tok, tokLt a b = true → tokLt b a = false
  | .txt a, .txt b, h => charListLt_asymm a b h
  | .dig a, .dig b, h => by
    simp only [tokLt, decide_eq_true_eq] at h
    simp only [tokLt, decide_eq_false_iff_not]
    omega
  | .dig _, .txt _, _ => rfl
  | .txt _, .dig _, h => by simp [tokLt] at h

theorem tokLt_trans : ∀ a b c : Tok, tokLt a b = true → tokLt b c = true → tokLt a c = true
  | .txt a, .txt b, .txt c, h1, h2 => charListLt_trans a b c h1 h2
  | .dig a, .dig b, .dig c, h1, h2 => by
    simp only [tokLt, decide_eq_true_eq] at h1 h2 ⊢
    omega
  | .dig _, .dig _, .txt _, _, _ => rfl
  | .dig _, .txt _, .dig _, _, h2 => by simp [tokLt] at h2
  | .dig _, .txt _, .txt _, _, _ => rfl
  | .txt _, .dig _, _, h1, _ => by simp [tokLt] at h1
  | .txt _, .txt _, .dig _, _, h2 => by simp [tokLt] at h2

theorem tokLt_eqv_left : ∀ a b : Tok, tokLt a b = false → tokLt b a = false →
    ∀ c : Tok, tokLt a c = tokLt b c
  | .txt a, .txt b, hab, hba, c => by
    cases c with
    | txt c => exact charListLt_eqv_left a b hab hba c
    | dig c => rfl
  | .dig a, .dig b, hab, hba, c => by
    simp only [tokLt, decide_eq_false_iff_not, not_lt] at hab hba
    have h : natOfDigits a = natOfDigits b := le_antisymm hba hab
    cases c
    · rfl
    · simp only [tokLt, h]
  | .dig _, .txt _, hab, _, _ => by simp [tokLt] at hab
  | .txt _, .dig _, _, hba, _ => by simp [tokLt] at hba

theorem tokLt_eqv_right : ∀ a b : Tok, tokLt a b = false → tokLt b a = false →
    ∀ c : Tok, tokLt c a = tokLt c b
  | .txt a, .txt b, hab, hba, c => by
    cases c with
    | txt c => exact charListLt_eqv_right a b hab hba c
    | dig c => rfl
  | .dig a, .dig b, hab, hba, c => by
    simp only [tokLt, decide_eq_false_iff_not, not_lt] at hab hba
    have h : natOfDigits a = natOfDigits b := le_antisymm hba hab
    cases c
    · simp only [tokLt, h]
    · simp only [tokLt, h]
  | .dig _, .txt _, hab, _, _ => by simp [tokLt] at hab
  | .txt _, .dig _, _, hba, _ => by simp [tokLt] at hba

theorem keyLt_asymm (a b : List Tok) (h : keyLt a b = true) : keyLt b a = false :=
  lexListLt_asymm tokLt tokLt_asymm a b h

theorem keyLt_trans (a b c : List Tok) (h1 : keyLt a b = true) (h2 : keyLt b c = true) :
    keyLt a c = true :=
  lexListLt_trans tokLt tokLt_trans tokLt_eqv_left tokLt_eqv_right a b c h1 h2

theorem photoLt_asymm (a b : String) (h : photoLt a b = true) : photoLt b a = false :=
  keyLt_asymm _ _ h

theorem photoLt_trans (a b c : String) (h1 : photoLt a b = true) (h2 : photoLt b c = true) :
    photoLt a c = true :=
  keyLt_trans _ _ _ h1 h2

theorem strLt_asymm (a b : String) (h : strLt a b = true) : strLt b a = false :=
  charListLt_asymm a b h

theorem strLt_trans (a b c : String) (h1 : strLt a b = true) (h2 : strLt b c = true) :
    strLt a c = true :=
  charListLt_trans a b c h1 h2

/-! ### Insertion sort: permutation and sortedness -/

theorem insertLt_perm (lt : α → α → Bool) (x : α) :
    ∀ l : List α, (insertLt lt x l).Perm (x :: l)
  | [] => by simp [insertLt]
  | y :: ys => by
    rw [insertLt]
    by_cases h : lt x y = true
    · rw [if_pos h]
    · rw [if_neg h]
      exact ((insertLt_perm lt x ys).cons y).trans (List.Perm.swap x y ys)

theorem sortByLt_perm (lt : α → α → Bool) : ∀ l : List α, (sortByLt lt l).Perm l
  | [] => List.Perm.refl _
  | x :: xs => by
    rw [sortByLt]
    exact (insertLt_perm lt x (sortByLt lt xs)).trans ((sortByLt_perm lt xs).cons x)

theorem insertLt_pairwise (lt : α → α → Bool)
    (htr : ∀ a b c, lt a b = true → lt b c = true → lt a c = true)
    (has : ∀ a b, lt a b = true → lt b a = false) (x : α) :
    ∀ l : List α, (l.Pairwise fun a b => lt b a = false) →
      ((insertLt lt x l).Pairwise fun a b => lt b a = false)
  | [], _ => by simp [insertLt]
  | y :: ys, h => by
    rw [List.pairwise_cons] at h
    obtain ⟨hy, hys⟩ := h
    rw [insertLt]
    by_cases hxy : lt x y = true
    · rw [if_pos hxy]
      refine List.Pairwise.cons ?_ (List.Pairwise.cons hy hys)
      intro z hz
      rcases List.mem_cons.mp hz with hz1 | hz1
      · rw [hz1]
        exact has x y hxy
      · by_contra hzx
        rw [Bool.not_eq_false] at hzx
        have h2 := htr z x y hzx hxy
        rw [hy z hz1] at h2
        exact absurd h2 (by simp)
    · rw [if_neg hxy]
      refine List.Pairwise.cons ?_ (insertLt_pairwise lt htr has x ys hys)
      intro z hz
      have hmem := (insertLt_perm lt x ys).mem_iff.mp hz
      rcases List.mem_cons.mp hmem with hz1 | hz1
      · rw [hz1]
        simpa using hxy
      · exact hy z hz1

theorem sortByLt_pairwise (lt : α → α → Bool)
    (htr : ∀ a b c, lt a b = true → lt b c = true → lt a c = true)
    (has : ∀ a b, lt a b = true → lt b a = false) :
    ∀ l : List α, (sortByLt lt l).Pairwise fun a b => lt b a = false
  | [] => by simp [sortByLt]
  | x :: xs => by
    rw [sortByLt]
    exact insertLt_pairwise lt htr has x _ (sortByLt_pairwise lt htr has xs)

/-! ### Lemmas on the create retry loop and the attach phase -/

theorem wait_for_existing_finds (tag : String) (polls : Nat → Option RemoteObs) (r : RemoteObs) :
    ∀ fuel cur k, k < fuel → polls (cur + k) = some r → (∀ j, j < k → polls (cur + j) = none) →
      wait_for_existing tag polls fuel cur =
        (some r, cur + k + 1, List.replicate (k + 1) (.search tag))
  | 0, _, k, hk, _, _ => absurd hk (Nat.not_lt_zero k)
  | fuel + 1, cur, 0, _, hfind, _ => by
    rw [wait_for_existing]
    rw [Nat.add_zero] at hfind
    rw [hfind]
    simp
  | fuel + 1, cur, k + 1, hk, hfind, hnone => by
    rw [wait_for_existing]
    have h0 : polls cur = none := by
      have h1 := hnone 0 (Nat.succ_pos k)
      rwa [Nat.add_zero] at h1
    rw [h0]
    have ih := wait_for_existing_finds tag polls r fuel (cur + 1) k
      (Nat.lt_of_succ_lt_succ hk)
      (by
        have h2 : cur + 1 + k = cur + (k + 1) := by omega
        rw [h2]
        exact hfind)
      (fun j hj => by
        have h3 := hnone (j + 1) (Nat.succ_lt_succ hj)
        have h4 : cur + 1 + j = cur + (j + 1) := by omega
        rw [h4]
        exact h3)
    rw [ih]
    simp [List.replicate_succ]
    omega

/-- After a first failed create, a record found while waiting for
indexing is adopted and no further create call is issued. -/
theorem createLoop_recovers (o : Oracle) (tag : String) (indexFuel : Nat)
    (hcr : o.createRes 0 = .error ()) (k : Nat) (r : RemoteObs)
    (hk : k < indexFuel) (hfind : o.polls k = some r)
    (hnone : ∀ j, j < k → o.polls j = none) (left : Nat) :
    createLoop o tag indexFuel left 0 0 =
      (some r, k + 1, .create :: List.replicate (k + 1) (.search tag)) := by
  rw [createLoop, hcr]
  have hw := wait_for_existing_finds tag o.polls r indexFuel 0 k hk
    (by rwa [Nat.zero_add]) (fun j hj => by rw [Nat.zero_add]; exact hnone j hj)
  rw [hw]
  simp

theorem photoAttempt_evs (o : Oracle) (p : String) (cIdx uIdx : Nat) :
    (photoAttempt o p cIdx uIdx).2.2 = [Ev.countQ, Ev.attach p, Ev.countQ] := by
  rw [photoAttempt]
  cases o.uploadRes uIdx <;> rfl

/-- The per-photo upload loop never issues a create call. -/
theorem photoLoop_no_create (o : Oracle) (p : String) :
    ∀ left cIdx uIdx, Ev.create ∉ (photoLoop o p left cIdx uIdx).2.2.2
  | 0, cIdx, uIdx => by
    rw [photoLoop]
    by_cases hc : (photoAttempt o p cIdx uIdx).1 = true
    · simp [hc, photoAttempt_evs]
    · rw [Bool.not_eq_true] at hc
      simp [hc, photoAttempt_evs]
  | left + 1, cIdx, uIdx => by
    rw [photoLoop]
    by_cases hc : (photoAttempt o p cIdx uIdx).1 = true
    · simp [hc, photoAttempt_evs]
    · rw [Bool.not_eq_true] at hc
      simp only [hc, Bool.false_eq_true, if_false, List.mem_append]
      push_neg
      refine ⟨by simp [photoAttempt_evs], ?_⟩
      exact photoLoop_no_create o p left (cIdx + 2) (uIdx + 1)

/-- The photo `for` loop never issues a create call. -/
theorem photosFor_no_create (o : Oracle) (cfg : Config) (sid : String) (localTotal : Nat) :
    ∀ ps st hashes sc cIdx uIdx,
      Ev.create ∉ (photosFor o cfg sid localTotal ps st hashes sc cIdx uIdx).evs
  | [], _, _, _, _, _ => by
    rw [photosFor]
    simp
  | p :: ps, st, hashes, sc, cIdx, uIdx => by
    rw [photosFor]
    by_cases hsk : hashes.contains (match o.hashOf p with
      | some h => h
      | none => "name:" ++ p ++ "|size:" ++ toString (o.sizeOf p)) = true
    · simp only [hsk, if_true]
      exact photosFor_no_create o cfg sid localTotal ps st hashes sc cIdx uIdx
    · rw [Bool.not_eq_true] at hsk
      simp only [hsk, Bool.false_eq_true, if_false]
      by_cases hfull : ((localTotal : Int) ≤ sc)
      · simp [hfull]
      · rw [if_neg hfull]
        cases hpl : (photoLoop o p cfg.uploadRetries cIdx uIdx).1 with
        | none =>
          simp only [hpl]
          exact photoLoop_no_create o p cfg.uploadRetries cIdx uIdx
        | some after =>
          simp only [hpl]
          by_cases hsf : cfg.stateFile = true
          · simp only [hsf, if_true, List.mem_append, List.mem_cons]
            push_neg
            exact ⟨⟨photoLoop_no_create o p cfg.uploadRetries cIdx uIdx, by simp, by simp⟩,
              photosFor_no_create o cfg sid localTotal ps _ _ _ _ _⟩
          · rw [Bool.not_eq_true] at hsf
            simp only [hsf, Bool.false_eq_true, if_false, List.mem_append]
            push_neg
            exact ⟨⟨photoLoop_no_create o p cfg.uploadRetries cIdx uIdx, by simp⟩,
              photosFor_no_create o cfg sid localTotal ps _ _ _ _ _⟩

/-- The media-attachment block never issues a create call. -/
theorem attachPhase_no_create (o : Oracle) (cfg : Config) (sid : String) (resp : RemoteObs)
    (photos : List String) (st : StateMap) :
    Ev.create ∉ (attachPhase o cfg sid resp photos st).2.1 := by
  simp only [attachPhase]
  repeat' split
  all_goals intro hmem
  all_goals simp at hmem
  all_goals exact photosFor_no_create _ _ _ _ _ _ _ _ _ _ hmem

/-- With a usable observation id and photos present, the attach block
always probes the remote photo count. -/
theorem attachPhase_countQ (o : Oracle) (cfg : Config) (sid : String) (resp : RemoteObs)
    (photos : List String) (st : StateMap)
    (hid : idTruthy resp.id = true) (hph : photos.isEmpty = false) :
    Ev.countQ ∈ (attachPhase o cfg sid resp photos st).2.1 := by
  simp only [attachPhase]
  repeat' split
  all_goals try simp
  all_goals
    rename_i hcond
    exact absurd (by simp [hid, hph]) hcond

theorem count_create_replicate_search (n : Nat) (tag : String) :
    (List.replicate n (Ev.search tag)).count Ev.create = 0 := by
  rw [List.count_eq_zero]
  intro h
  have h1 := List.eq_of_mem_replicate h
  simp at h1

theorem count_create_ifList (c : Prop) [Decidable c] (l : List Ev)
    (h : l.count Ev.create = 0) : (if c then l else []).count Ev.create = 0 := by
  split
  · exact h
  · rfl

theorem createFailureRecoveredBySearch
    (cfg : Config) (fs : FileSystem) (transform : String → ℚ → ℚ → Option (ℚ × ℚ))
    (epsgToUse : String) (o : Oracle) (rowd : RowData) (st : StateMap)
    (hskip : (cfg.stateFile && completeInState st rowd.sample_id) = false)
    (hdd : cfg.dedupeRemote = false)
    (hph : (collect_photos fs rowd.sample_id).isEmpty = false)
    (la lo : ℚ) (hco : resolve_lat_lon_from_xy transform rowd epsgToUse = (some la, some lo))
    (hdr : cfg.dryRun = false)
    (hcr : o.createRes 0 = .error ())
    (k : Nat) (r : RemoteObs) (hk : k < cfg.indexFuel) (hfind : o.polls k = some r)
    (hnone : ∀ j, j < k → o.polls j = none)
    (i : Nat) (hid : r.id = some i) (hi : i ≠ 0) :
    (processSample cfg fs transform epsgToUse o rowd st).2.1.count Ev.create = 1 ∧
    Ev.countQ ∈ (processSample cfg fs transform epsgToUse o rowd st).2.1 ∧
    ((processSample cfg fs transform epsgToUse o rowd st).2.2 = .created r ∨
     (processSample cfg fs transform epsgToUse o rowd st).2.2 = .errored) := by
  have hcl := createLoop_recovers o ("emi_external_id:" ++ rowd.sample_id) cfg.indexFuel hcr
    k r hk hfind hnone cfg.uploadRetries
  have hidT : idTruthy r.id = true := by rw [hid]; simp [idTruthy, hi]
  have hnc : Ev.create ∉ (attachPhase o cfg rowd.sample_id r
      (collect_photos fs rowd.sample_id) st).2.1 :=
    attachPhase_no_create o cfg rowd.sample_id r (collect_photos fs rowd.sample_id) st
  have hcq : Ev.countQ ∈ (attachPhase o cfg rowd.sample_id r
      (collect_photos fs rowd.sample_id) st).2.1 :=
    attachPhase_countQ o cfg rowd.sample_id r (collect_photos fs rowd.sample_id) st hidT hph
  have hnc0 : (attachPhase o cfg rowd.sample_id r
      (collect_photos fs rowd.sample_id) st).2.1.count Ev.create = 0 :=
    List.count_eq_zero.mpr hnc
  simp only [processSample, hskip, hdd, hdr, hph, hco, hcl]
  simp only [Bool.false_eq_true, if_false]
  by_cases hr : (attachPhase o cfg rowd.sample_id r
      (collect_photos fs rowd.sample_id) st).2.2 = true
  · simp only [hr, if_true]
    refine ⟨?_, ?_, by simp⟩
    · simp [List.count_append, List.count_cons, count_create_replicate_search, hnc0]
    · simp [hcq]
  · rw [if_neg hr]
    refine ⟨?_, ?_, by simp⟩
    · simp only [List.nil_append, List.count_append, List.count_cons,
        count_create_replicate_search, hnc0]
      rw [count_create_ifList _ _ (by simp [List.count_eq_zero]),
        count_create_ifList _ _ (by simp [List.count_eq_zero])]
      have hsv : ((if (cfg.stateFile && r.id.isSome) = true then
          (setEntry (attachPhase o cfg rowd.sample_id r
              (collect_photos fs rowd.sample_id) st).1 rowd.sample_id
            { rid := r.id, uuid := r.uuid, uploaded_photos := [], complete := false },
            [Ev.save (setEntry (attachPhase o cfg rowd.sample_id r
              (collect_photos fs rowd.sample_id) st).1 rowd.sample_id
            { rid := r.id, uuid := r.uuid, uploaded_photos := [], complete := false })])
        else ((attachPhase o cfg rowd.sample_id r
          (collect_photos fs rowd.sample_id) st).1, [])).2).count Ev.create = 0 := by
        split
        · simp [List.count_eq_zero]
        · rfl
      rw [hsv]
      simp
    · simp [hcq]

/-! ### Skip and persistence lemmas -/

theorem getEntry_setEntry_self (k : String) (e : Entry) :
    ∀ st : StateMap, getEntry (setEntry st k e) k = some e
  | [] => by simp [setEntry, getEntry]
  | (k1, e1) :: rest => by
    rw [setEntry]
    by_cases h : k1 = k
    · rw [if_pos h, getEntry, if_pos rfl]
    · rw [if_neg h, getEntry, if_neg h]
      exact getEntry_setEntry_self k e rest

theorem mem_sortedUnion_right (l : List String) (h : String) :
    h ∈ sortedUnion l [h] := by
  rw [sortedUnion]
  rw [(sortByLt_perm strLt _).mem_iff]
  rw [List.mem_dedup]
  simp

theorem photoAttempt_confirm (o : Oracle) (p : String) (cIdx uIdx : Nat) :
    (photoAttempt o p cIdx uIdx).1 = decide (o.counts cIdx < o.counts (cIdx + 1)) := by
  rw [photoAttempt]
  cases o.uploadRes uIdx <;> rfl

theorem photoAttempt_after (o : Oracle) (p : String) (cIdx uIdx : Nat) :
    (photoAttempt o p cIdx uIdx).2.1 = o.counts (cIdx + 1) := by
  rw [photoAttempt]
  cases o.uploadRes uIdx <;> rfl

/-- A first-attempt-confirmed upload ends the per-photo loop at once. -/
theorem photoLoop_first_success (o : Oracle) (p : String) (cIdx uIdx : Nat)
    (hconf : o.counts cIdx < o.counts (cIdx + 1)) :
    ∀ left, photoLoop o p left cIdx uIdx =
      (some (o.counts (cIdx + 1)), cIdx + 2, uIdx + 1, [Ev.countQ, Ev.attach p, Ev.countQ]) := by
  intro left
  have hc : (photoAttempt o p cIdx uIdx).1 = true := by
    rw [photoAttempt_confirm]
    exact decide_eq_true hconf
  cases left with
  | zero =>
    rw [photoLoop, if_pos hc, photoAttempt_after, photoAttempt_evs]
  | succ left' =>
    rw [photoLoop, if_pos hc, photoAttempt_after, photoAttempt_evs]

/-- A confirmed upload is followed at once by a save whose state records
the photo's hash, before the loop moves to the next photo. -/
theorem photosFor_save_after_hash
    (o : Oracle) (cfg : Config) (sid : String) (localTotal : Nat)
    (p : String) (ps : List String) (st : StateMap) (hashes : List String)
    (sc : Int) (cIdx uIdx : Nat) (h : String)
    (hsf : cfg.stateFile = true)
    (hh : o.hashOf p = some h) (hnew : hashes.contains h = false)
    (hroom : ¬ ((localTotal : Int) ≤ sc))
    (hconf : o.counts cIdx < o.counts (cIdx + 1)) :
    (photosFor o cfg sid localTotal (p :: ps) st hashes sc cIdx uIdx).evs =
      Ev.countQ :: Ev.attach p :: Ev.countQ :: Ev.save (addHashState st sid h) ::
        (photosFor o cfg sid localTotal ps (addHashState st sid h) (h :: hashes)
          (o.counts (cIdx + 1)) (cIdx + 2) (uIdx + 1)).evs ∧
    h ∈ uploadedPhotos (addHashState st sid h) sid := by
  rw [photosFor]
  simp only [hh, hnew, Bool.false_eq_true, if_false, if_neg hroom,
    photoLoop_first_success o p cIdx uIdx hconf, hsf, if_true,
    List.append_assoc, List.cons_append, List.nil_append]
  refine ⟨by simp [addHashState], ?_⟩
  rw [addHashState, uploadedPhotos, getEntry_setEntry_self]
  exact mem_sortedUnion_right _ h

/-- A sample whose entry is marked complete is skipped before anything
else: no event is emitted and the state is unchanged. -/
theorem completeEntrySkipsAllRemoteCalls
    (cfg : Config) (fs : FileSystem) (transform : String → ℚ → ℚ → Option (ℚ × ℚ))
    (epsgToUse : String) (o : Oracle) (rowd : RowData) (st : StateMap) (e : Entry)
    (hsf : cfg.stateFile = true)
    (hentry : getEntry st rowd.sample_id = some e) (hc : e.complete = true) :
    processSample cfg fs transform epsgToUse o rowd st = (st, [], .skippedComplete) := by
  have hcs : completeInState st rowd.sample_id = true := by
    rw [completeInState, hentry]
    exact hc
  simp [processSample, hsf, hcs]

/-- The remote-dedupe hit replaces the whole state entry with a bare id
and emits no save. -/
theorem dedupePathNoSave
    (cfg : Config) (fs : FileSystem) (transform : String → ℚ → ℚ → Option (ℚ × ℚ))
    (epsgToUse : String) (o : Oracle) (rowd : RowData) (st : StateMap)
    (first : RemoteObs) (rest : List RemoteObs)
    (hskip : (cfg.stateFile && completeInState st rowd.sample_id) = false)
    (hdd : cfg.dedupeRemote = true) (hsf : cfg.stateFile = true)
    (hfound : o.dedupe = .ok (first :: rest)) :
    processSample cfg fs transform epsgToUse o rowd st =
      (setEntry st rowd.sample_id { rid := first.id },
       [.search ("emi_external_id:" ++ rowd.sample_id)], .skippedExisting) := by
  have hcs : completeInState st rowd.sample_id = false := by
    rw [hsf] at hskip
    simpa using hskip
  simp [processSample, hcs, hdd, hsf, hfound]

/-- Source lines 489-498: with a usable id and photos present, the
id/uuid mutation of the state entry is immediately followed by its
save, before the next operation (the photo-count probe). -/
theorem attachPhase_id_save (o : Oracle) (cfg : Config) (sid : String) (resp : RemoteObs)
    (photos : List String) (st : StateMap)
    (hsf : cfg.stateFile = true) (hid : idTruthy resp.id = true)
    (hph : photos.isEmpty = false) :
    (attachPhase o cfg sid resp photos st).2.1.take 2 =
      [Ev.save (recordIdState st sid resp), Ev.countQ] := by
  simp only [attachPhase, hsf, if_true]
  rw [if_pos (by simp [hid, hph])]
  repeat' split
  all_goals simp [recordIdState]

/-- Source lines 500-522: when the server count already covers all
local photos, the hash-merge and completion-flag mutation is persisted
at once: the save of the final, completion-marked state is the last
event of the attach block. -/
theorem attachPhase_complete_save_shortcut (o : Oracle) (cfg : Config) (sid : String)
    (resp : RemoteObs) (photos : List String) (st : StateMap)
    (hsf : cfg.stateFile = true) (hid : idTruthy resp.id = true)
    (hph : photos.isEmpty = false)
    (hfull : (photos.length : Int) ≤ o.counts 0) :
    (attachPhase o cfg sid resp photos st).2.1.getLast? =
      some (Ev.save (attachPhase o cfg sid resp photos st).1) ∧
    completeInState (attachPhase o cfg sid resp photos st).1 sid = true := by
  simp only [attachPhase, hsf, if_true]
  rw [if_pos (by simp [hid, hph])]
  rw [if_pos hfull]
  constructor
  · exact List.getLast?_concat _
  · rw [completeInState, getEntry_setEntry_self]

/-- Source lines 609-617: when the photo loop finishes without raising
and the final count covers all local photos, the completion-flag
mutation is persisted at once: the save of the final,
completion-marked state is the last event of the attach block. -/
theorem attachPhase_complete_save_final (o : Oracle) (cfg : Config) (sid : String)
    (resp : RemoteObs) (photos : List String) (st : StateMap)
    (hsf : cfg.stateFile = true) (hid : idTruthy resp.id = true)
    (hph : photos.isEmpty = false)
    (hnotfull : ¬ ((photos.length : Int) ≤ o.counts 0))
    (hr : (photosFor o cfg sid photos.length photos (recordIdState st sid resp)
      (uploadedPhotos (recordIdState st sid resp) sid) (o.counts 0) 1 0).raised = false)
    (hfin : (photos.length : Int) ≤ o.counts (photosFor o cfg sid photos.length photos
      (recordIdState st sid resp)
      (uploadedPhotos (recordIdState st sid resp) sid) (o.counts 0) 1 0).cIdx) :
    (attachPhase o cfg sid resp photos st).2.1.getLast? =
      some (Ev.save (attachPhase o cfg sid resp photos st).1) ∧
    completeInState (attachPhase o cfg sid resp photos st).1 sid = true := by
  simp only [recordIdState, uploadedPhotos] at hr hfin
  simp only [attachPhase, hsf, if_true]
  rw [if_pos (by simp [hid, hph])]
  rw [if_neg hnotfull]
  rw [hr]
  simp only [Bool.false_eq_true, if_false, hsf, if_true]
  rw [if_pos hfin]
  constructor
  · exact List.getLast?_concat _
  · rw [completeInState, getEntry_setEntry_self]

/-- A row whose sample identifier is absent or strips to the empty
string yields (when extraction does not raise on the numeric flags) a
record with an empty sample id, which the upload filter drops before
any per-row processing; the remaining rows are unaffected. -/
theorem emptyIdRowFilteredSilently (pf : String → Option ℚ) (pint : String → Option Int)
    (strp : String → Option String) (row : Row)
    (hid : row "sample_id" = .absent ∨ ∃ s, row "sample_id" = .str s ∧ pyStrip s = "")
    (rd : RowData) (hex : to_row_data pf pint strp row = .ok rd) :
    rd.sample_id = "" ∧ uploadEligible rd = false ∧
      ∀ rds : List RowData, (rd :: rds).filter uploadEligible = rds.filter uploadEligible := by
  have hsid : pyStrip (pyStrCell (getD row "sample_id" (.str ""))) = "" := by
    rcases hid with h | ⟨s, h, hs⟩
    · rw [getD, h]
      rfl
    · rw [getD, h]
      exact hs
  simp only [to_row_data] at hex
  split at hex
  · exact absurd hex (by simp)
  · split at hex
    · exact absurd hex (by simp)
    · rw [Except.ok.injEq] at hex
      subst hex
      refine ⟨hsid, ?_, ?_⟩
      · rw [uploadEligible]
        simp [hsid]
      · intro rds
        rw [List.filter]
        rw [uploadEligible]
        simp [hsid]

/-! ## The claims -/

/-- C1: the uploaded-photo hash set of a state entry is not monotone:
the remote-dedupe hit (source line 364) replaces a partially-uploaded
entry by a bare id, losing hash `h1`; and on the fully successful path,
the hashes and the completion flag recorded during attachment (the
middle save) are wiped again by the final state rewrite of source lines
636-641, which the run itself persists. -/
theorem uploadedPhotosWipedByStateRewrites :
    uploadedPhotos stPartial "dbgi_000001" = ["h1"] ∧
    uploadedPhotos (processSample cfgDedupe fsMain transform0 "4326" oracleFound rowdMain
      stPartial).1 "dbgi_000001" = [] ∧
    Ev.save [("dbgi_000001",
        { rid := some 7, uuid := some "u7", uploaded_photos := ["sha-img1.jpg"],
          complete := true })] ∈
      (processSample cfgPush fsMain transform0 "4326" oracleSrvFull rowdMain []).2.1 ∧
    (processSample cfgPush fsMain transform0 "4326" oracleSrvFull rowdMain []).1 =
      [("dbgi_000001", { rid := some 7, uuid := some "u7" })] := by
  refine ⟨rfl, by decide, by decide, by decide⟩

/-- C2 witness: a concrete complete entry is skipped with no events. -/
theorem completeEntrySkipsAllRemoteCallsWitness :
    processSample cfgDedupe fsMain transform0 "4326" oracleFound rowdMain stComplete =
      (stComplete, [], .skippedComplete) :=
  completeEntrySkipsAllRemoteCalls cfgDedupe fsMain transform0 "4326" oracleFound rowdMain
    stComplete { complete := true } rfl rfl rfl

/-- C3 witness: first create raises, the first wait poll finds the
tagged record; exactly one create call, photo count probed, outcome
fixed by the found record. -/
theorem createFailureRecoveredBySearchWitness :
    (processSample cfgCreate fsMain transform0 "4326" oracleRecover rowdMain []).2.1.count
      Ev.create = 1 ∧
    Ev.countQ ∈ (processSample cfgCreate fsMain transform0 "4326" oracleRecover rowdMain []).2.1 ∧
    ((processSample cfgCreate fsMain transform0 "4326" oracleRecover rowdMain []).2.2 =
        .created obsFound ∨
      (processSample cfgCreate fsMain transform0 "4326" oracleRecover rowdMain []).2.2 =
        .errored) :=
  createFailureRecoveredBySearch cfgCreate fsMain transform0 "4326" oracleRecover rowdMain []
    rfl rfl (by decide) 46 7 rfl rfl rfl 0 obsFound (by decide) rfl
    (fun j hj => absurd hj (Nat.not_lt_zero j)) 9 rfl (by decide)

/-- C4 counterexample: a row with no sample identifier makes the Row
Extractor return a record (no `MalformedRow`-style failure is raised);
its sample id is the empty string and the upload filter silently drops
it. -/
theorem missingIdYieldsRecordNotFailure :
    to_row_data pf0 pint0 strp0 rowNoSampleId = .ok rdEmpty ∧
    rdEmpty.sample_id = "" ∧
    List.filter uploadEligible [rdEmpty] = [] := by
  refine ⟨rfl, rfl, rfl⟩

/-- C4 witness (amended claim at a concrete row). -/
theorem emptyIdRowFilteredSilentlyWitness :
    rdEmpty.sample_id = "" ∧ uploadEligible rdEmpty = false ∧
      List.filter uploadEligible [rdEmpty] = List.filter uploadEligible [] :=
  ⟨(emptyIdRowFilteredSilently pf0 pint0 strp0 rowNoSampleId (Or.inl rfl) rdEmpty rfl).1,
   (emptyIdRowFilteredSilently pf0 pint0 strp0 rowNoSampleId (Or.inl rfl) rdEmpty rfl).2.1,
   (emptyIdRowFilteredSilently pf0 pint0 strp0 rowNoSampleId (Or.inl rfl) rdEmpty rfl).2.2 []⟩

/-- C5 counterexample: the modelled `write_text` save exposes the
truncated (empty) file to a concurrent reader, so the discipline is not
write-temp-then-replace; and the remote-dedupe path mutates the state
entry of `dbgi_000001` while emitting no save at all. -/
theorem saveNotAtomicAndDedupeMutationUnsaved :
    ("" ∈ write_text_states "oldstate" "newstate" ∧ "" ≠ "oldstate" ∧ "" ≠ "newstate") ∧
    ((processSample cfgDedupe fsMain transform0 "4326" oracleFound rowdMain stPartial).1 ≠
        stPartial ∧
      (processSample cfgDedupe fsMain transform0 "4326" oracleFound rowdMain stPartial).2.1 =
        [.search ("emi_external_id:" ++ "dbgi_000001")]) := by
  refine ⟨⟨by simp [write_text_states], by decide, by decide⟩, by decide, by decide⟩

/-- C5 (amended): every save overwrites the state file in place by
truncate-then-write, so a reader can observe a state that is neither
the old nor the new content; a save carrying the updated entry is
issued immediately after the remote id is recorded, immediately after
each confirmed photo-hash addition, and immediately when the
completion flag is set (both in the server-already-has-all-photos
shortcut and after the photo loop); but the remote id recorded by the
remote-dedupe skip path is not followed by any save. -/
theorem saveDisciplineInPlaceAndPerMutation :
    (∀ old new : String, old ≠ "" → new ≠ "" →
      ∃ s ∈ write_text_states old new, s ≠ old ∧ s ≠ new) ∧
    (∀ (cfg : Config) (fs : FileSystem) (transform : String → ℚ → ℚ → Option (ℚ × ℚ))
        (epsgToUse : String) (o : Oracle) (rowd : RowData) (st : StateMap)
        (first : RemoteObs) (rest : List RemoteObs),
      (cfg.stateFile && completeInState st rowd.sample_id) = false →
      cfg.dedupeRemote = true → cfg.stateFile = true →
      o.dedupe = .ok (first :: rest) →
      processSample cfg fs transform epsgToUse o rowd st =
        (setEntry st rowd.sample_id { rid := first.id },
         [.search ("emi_external_id:" ++ rowd.sample_id)], .skippedExisting)) ∧
    (∀ (o : Oracle) (cfg : Config) (sid : String) (localTotal : Nat) (p : String)
        (ps : List String) (st : StateMap) (hashes : List String) (sc : Int)
        (cIdx uIdx : Nat) (h : String),
      cfg.stateFile = true → o.hashOf p = some h → hashes.contains h = false →
      ¬ ((localTotal : Int) ≤ sc) → o.counts cIdx < o.counts (cIdx + 1) →
      (photosFor o cfg sid localTotal (p :: ps) st hashes sc cIdx uIdx).evs =
        Ev.countQ :: Ev.attach p :: Ev.countQ :: Ev.save (addHashState st sid h) ::
          (photosFor o cfg sid localTotal ps (addHashState st sid h) (h :: hashes)
            (o.counts (cIdx + 1)) (cIdx + 2) (uIdx + 1)).evs ∧
      h ∈ uploadedPhotos (addHashState st sid h) sid) ∧
    (∀ (o : Oracle) (cfg : Config) (sid : String) (resp : RemoteObs)
        (photos : List String) (st : StateMap),
      cfg.stateFile = true → idTruthy resp.id = true → photos.isEmpty = false →
      (attachPhase o cfg sid resp photos st).2.1.take 2 =
        [Ev.save (recordIdState st sid resp), Ev.countQ]) ∧
    (∀ (o : Oracle) (cfg : Config) (sid : String) (resp : RemoteObs)
        (photos : List String) (st : StateMap),
      cfg.stateFile = true → idTruthy resp.id = true → photos.isEmpty = false →
      (photos.length : Int) ≤ o.counts 0 →
      (attachPhase o cfg sid resp photos st).2.1.getLast? =
        some (Ev.save (attachPhase o cfg sid resp photos st).1) ∧
      completeInState (attachPhase o cfg sid resp photos st).1 sid = true) ∧
    (∀ (o : Oracle) (cfg : Config) (sid : String) (resp : RemoteObs)
        (photos : List String) (st : StateMap),
      cfg.stateFile = true → idTruthy resp.id = true → photos.isEmpty = false →
      ¬ ((photos.length : Int) ≤ o.counts 0) →
      (photosFor o cfg sid photos.length photos (recordIdState st sid resp)
        (uploadedPhotos (recordIdState st sid resp) sid) (o.counts 0) 1 0).raised = false →
      (photos.length : Int) ≤ o.counts (photosFor o cfg sid photos.length photos
        (recordIdState st sid resp)
        (uploadedPhotos (recordIdState st sid resp) sid) (o.counts 0) 1 0).cIdx →
      (attachPhase o cfg sid resp photos st).2.1.getLast? =
        some (Ev.save (attachPhase o cfg sid resp photos st).1) ∧
      completeInState (attachPhase o cfg sid resp photos st).1 sid = true) :=
  ⟨fun old new ho hn => ⟨"", by simp [write_text_states], Ne.symm ho, Ne.symm hn⟩,
   dedupePathNoSave, photosFor_save_after_hash, attachPhase_id_save,
   attachPhase_complete_save_shortcut, attachPhase_complete_save_final⟩

/-- C5 witness: the amended clauses at concrete runs - the unsaved
dedupe-path mutation, the save right after one confirmed photo-hash
addition, the save right after the id is recorded, and the final save
of the completion-marked state in both completion branches. -/
theorem saveDisciplineInPlaceAndPerMutationWitness :
    (processSample cfgDedupe fsMain transform0 "4326" oracleFound rowdMain stPartial =
      (setEntry stPartial "dbgi_000001" { rid := some 5 },
       [.search ("emi_external_id:" ++ "dbgi_000001")], .skippedExisting)) ∧
    ((photosFor oracleUp cfgPush "dbgi_000001" 1 ["img1.jpg"] [] [] 0 1 0).evs =
      Ev.countQ :: Ev.attach "img1.jpg" :: Ev.countQ ::
        Ev.save (addHashState [] "dbgi_000001" "sha-img1.jpg") ::
        (photosFor oracleUp cfgPush "dbgi_000001" 1 []
          (addHashState [] "dbgi_000001" "sha-img1.jpg") ["sha-img1.jpg"]
          (oracleUp.counts 2) 3 1).evs ∧
      "sha-img1.jpg" ∈ uploadedPhotos (addHashState [] "dbgi_000001" "sha-img1.jpg")
        "dbgi_000001") ∧
    ((attachPhase oracleUp cfgPush "dbgi_000001" { id := some 7, uuid := some "u7" }
      ["img1.jpg"] []).2.1.take 2 =
      [Ev.save (recordIdState [] "dbgi_000001" { id := some 7, uuid := some "u7" }),
       Ev.countQ]) ∧
    ((attachPhase oracleSrvFull cfgPush "dbgi_000001" { id := some 7, uuid := some "u7" }
        ["img1.jpg"] []).2.1.getLast? =
      some (Ev.save (attachPhase oracleSrvFull cfgPush "dbgi_000001"
        { id := some 7, uuid := some "u7" } ["img1.jpg"] []).1) ∧
      completeInState (attachPhase oracleSrvFull cfgPush "dbgi_000001"
        { id := some 7, uuid := some "u7" } ["img1.jpg"] []).1 "dbgi_000001" = true) ∧
    ((attachPhase oracleUp cfgPush "dbgi_000001" { id := some 7, uuid := some "u7" }
        ["img1.jpg"] []).2.1.getLast? =
      some (Ev.save (attachPhase oracleUp cfgPush "dbgi_000001"
        { id := some 7, uuid := some "u7" } ["img1.jpg"] []).1) ∧
      completeInState (attachPhase oracleUp cfgPush "dbgi_000001"
        { id := some 7, uuid := some "u7" } ["img1.jpg"] []).1 "dbgi_000001" = true) :=
  ⟨saveDisciplineInPlaceAndPerMutation.2.1 cfgDedupe fsMain transform0 "4326" oracleFound
      rowdMain stPartial { id := some 5 } [] rfl rfl rfl rfl,
   saveDisciplineInPlaceAndPerMutation.2.2.1 oracleUp cfgPush "dbgi_000001" 1 "img1.jpg"
      [] [] [] 0 1 0 "sha-img1.jpg" rfl rfl rfl (by decide) (by decide),
   saveDisciplineInPlaceAndPerMutation.2.2.2.1 oracleUp cfgPush "dbgi_000001"
      { id := some 7, uuid := some "u7" } ["img1.jpg"] [] rfl (by decide) rfl,
   saveDisciplineInPlaceAndPerMutation.2.2.2.2.1 oracleSrvFull cfgPush "dbgi_000001"
      { id := some 7, uuid := some "u7" } ["img1.jpg"] [] rfl (by decide) rfl (by decide),
   saveDisciplineInPlaceAndPerMutation.2.2.2.2.2 oracleUp cfgPush "dbgi_000001"
      { id := some 7, uuid := some "u7" } ["img1.jpg"] [] rfl (by decide) rfl (by decide)
      (by decide) (by decide)⟩

/-- C6: with both planar coordinates present and the geographic
identifier `"4326"`, the resolver returns exactly `(y, x)`; the values
pass through unchanged with the axis order corrected. -/
theorem geographicPassThrough (transform : String → ℚ → ℚ → Option (ℚ × ℚ))
    (rowd : RowData) (x y : ℚ)
    (hx : rowd.x_coord = some x) (hy : rowd.y_coord = some y) :
    resolve_lat_lon_from_xy transform rowd "4326" = (some y, some x) := by
  rw [resolve_lat_lon_from_xy, hx, hy]
  simp

/-- C6 witness: input `(x = 7, y = 46)` resolves to `(lat = 46, lon = 7)`. -/
theorem geographicPassThroughWitness :
    resolve_lat_lon_from_xy transform0 rowdMain "4326" = (some 46, some 7) :=
  geographicPassThrough transform0 rowdMain 7 46 rfl rfl

/-- C7: the state load returns the persisted mapping when the file
parses, the empty mapping when the file is absent or corrupt, and a run
on a corrupt state file proceeds exactly as a run on an empty one
(loading never aborts the run). -/
theorem loadStateAbsentCorruptEmpty :
    loadState .absent = [] ∧ loadState .corrupt = [] ∧
    (∀ m : StateMap, loadState (.parsed m) = m) ∧
    (∀ (cfg : Config) (pf : String → Option ℚ) (pint : String → Option Int)
        (strp : String → Option String) (fs : FileSystem)
        (transform : String → ℚ → ℚ → Option (ℚ × ℚ)) (epsgToUse : String)
        (rows : List Row) (oracles : Nat → Oracle) (limit : Option Nat),
      run cfg pf pint strp fs transform epsgToUse .corrupt rows oracles limit =
        run cfg pf pint strp fs transform epsgToUse (.parsed []) rows oracles limit) :=
  ⟨rfl, rfl, fun _ => rfl, fun _ _ _ _ _ _ _ _ _ _ => rfl⟩

/-- C8: the photo locator returns the empty list when the sample
subdirectory is absent, otherwise exactly the pattern-matched files of
that subdirectory (a permutation of them) sorted non-decreasingly by
the natural key; under that key a name containing `img2` sorts before
the same name with `img10`, as the concrete folder shows. -/
theorem collectPhotosNaturalOrder (fs : FileSystem) (sid : String) :
    (fs.lookup sid = none → collect_photos fs sid = []) ∧
    (collect_photos fs sid).Perm
      (photoExts.flatMap fun ext => ((fs.lookup sid).getD []).filter (globStar ext)) ∧
    List.Pairwise (fun a b => photoLt b a = false) (collect_photos fs sid) ∧
    photoLt "img2.jpg" "img10.jpg" = true ∧
    collect_photos ⟨[("sampleA", ["img10.jpg", "img2.jpg"])]⟩ "sampleA" =
      ["img2.jpg", "img10.jpg"] := by
  refine ⟨?_, ?_, ?_, by decide, by decide⟩
  · intro h
    rw [collect_photos, h]
  · rw [collect_photos]
    cases h : fs.lookup sid with
    | none => simp
    | some files => simpa using sortByLt_perm photoLt _
  · rw [collect_photos]
    cases h : fs.lookup sid with
    | none => simp
    | some files => exact sortByLt_pairwise photoLt photoLt_trans photoLt_asymm _

/-- C8 witness: a sample id with no subdirectory yields the empty list. -/
theorem collectPhotosNaturalOrderWitness :
    collect_photos fsMain "dbgi_missing" = [] :=
  (collectPhotosNaturalOrder fsMain "dbgi_missing").1 rfl

/-- C9: the claim that only a non-dry-run execution without a token
aborts the run fails on the code: a dry-run with a token present still
aborts when a row's upload flag is a non-numeric string, because the
unguarded `int()` of source line 185 raises during row extraction. -/
theorem malformedFlagAbortsRun :
    run cfgDryTok pf0 pint0 strp0 fsMain transform0 "4326" .absent [rowBadFlag]
      (fun _ => oracleFound) none = .error "row extraction raised" ∧
    cfgDryTok.dryRun = true ∧ cfgDryTok.tokenPresent = true :=
  ⟨rfl, rfl, rfl⟩

/-- C10: every returned photo lies in the sample subdirectory and ends
in one of the three lowercase extensions; a folder whose files all fail
the (case-sensitive) patterns yields the empty list; and such a sample
is skipped by the orchestrator with no remote call. -/
theorem collectPhotosExtensionFilter (fs : FileSystem) (sid : String) :
    (∀ p ∈ collect_photos fs sid,
      (∃ files, fs.lookup sid = some files ∧ p ∈ files) ∧
      (strEndsWith p ".jpg" = true ∨ strEndsWith p ".jpeg" = true ∨
        strEndsWith p ".png" = true)) ∧
    (∀ files, fs.lookup sid = some files →
      (∀ f ∈ files, globStar ".jpg" f = false ∧ globStar ".jpeg" f = false ∧
        globStar ".png" f = false) →
      collect_photos fs sid = []) ∧
    (∀ (cfg : Config) (transform : String → ℚ → ℚ → Option (ℚ × ℚ)) (epsgToUse : String)
        (o : Oracle) (rowd : RowData) (st : StateMap),
      rowd.sample_id = sid →
      (cfg.stateFile && completeInState st sid) = false →
      cfg.dedupeRemote = false →
      collect_photos fs sid = [] →
      processSample cfg fs transform epsgToUse o rowd st = (st, [], .skippedNoPhotos)) := by
  refine ⟨?_, ?_, ?_⟩
  · intro p hp
    rw [collect_photos] at hp
    cases h : fs.lookup sid with
    | none =>
      rw [h] at hp
      simp at hp
    | some files =>
      rw [h] at hp
      have hmem := (sortByLt_perm photoLt _).mem_iff.mp hp
      rw [List.mem_flatMap] at hmem
      obtain ⟨ext, hext, hmem⟩ := hmem
      rw [List.mem_filter] at hmem
      obtain ⟨hfile, hglob⟩ := hmem
      rw [globStar, Bool.and_eq_true] at hglob
      refine ⟨⟨files, rfl, hfile⟩, ?_⟩
      simp only [photoExts, List.mem_cons, List.mem_singleton] at hext
      rcases hext with h1 | h1 | h1
      · exact Or.inl (h1 ▸ hglob.2)
      · exact Or.inr (Or.inl (h1 ▸ hglob.2))
      · rcases h1 with h1 | h1
        · exact Or.inr (Or.inr (h1 ▸ hglob.2))
        · simp at h1
  · intro files hlk hnone
    rw [collect_photos, hlk]
    have h1 : files.filter (globStar ".jpg") = [] := by
      rw [List.filter_eq_nil_iff]
      intro f hf
      simp [(hnone f hf).1]
    have h2 : files.filter (globStar ".jpeg") = [] := by
      rw [List.filter_eq_nil_iff]
      intro f hf
      simp [(hnone f hf).2.1]
    have h3 : files.filter (globStar ".png") = [] := by
      rw [List.filter_eq_nil_iff]
      intro f hf
      simp [(hnone f hf).2.2]
    simp [photoExts, h1, h2, h3, sortByLt]
  · intro cfg transform epsgToUse o rowd st hrow hskip hdd hempty
    subst hrow
    simp [processSample, hskip, hdd, hempty]

/-- C10 witness: a folder holding only uppercase-extension and
non-image files yields zero photos. -/
theorem collectPhotosExtensionFilterWitness :
    collect_photos fsUpper "dbgi_000002" = [] :=
  (collectPhotosExtensionFilter fsUpper "dbgi_000002").2.1
    ["PIC1.JPG", "Pic2.PNG", "notes.txt"] rfl (by decide)

end Pusher
